import Mathlib

/-!
Shallow embedding of `src/stock_utilities.py` (module `stock_utilities`).

Modelling decisions:
* Python floats become rationals `ℚ` (the Real-valued n-th root of the
  all-share index is the one place where `ℝ` is needed).
* Python `None` for the optional numeric fields becomes `Option ℚ`.
* `raise ValueError(msg)` becomes `Except.error msg`; a normal return of a
  possibly-`None` value becomes `Except.ok` of an `Option`.
* Timestamps are rationals measured in minutes; `datetime.now()` is made an
  explicit `now`/`timestamp` parameter, as the spec directs for determinism.
* The `indicator` argument of `record_trade` is dynamically typed in Python;
  it is embedded as `Option TradeType`, where `none` stands for any Python
  value outside the `TradeType` enum (the `indicator not in TradeType` check).
-/

/-- Python `class StockType(Enum)` with members `COMMON` and `PREFERRED`. -/
inductive StockType
  | COMMON
  | PREFERRED
  deriving DecidableEq, Repr

/-- Python `class TradeType(Enum)` with members `BUY` and `SELL`. -/
inductive TradeType
  | BUY
  | SELL
  deriving DecidableEq, Repr

/-- One entry of the trade ledger: the dict
`{'timestamp': ..., 'quantity': ..., 'price': ..., 'indicator': ...}`
appended by `record_trade`. -/
structure Trade where
  timestamp : ℚ
  quantity : ℤ
  price : ℚ
  indicator : TradeType
  deriving DecidableEq, Repr

/-- The state of a `StockData` object: the five constructor fields plus the
trade ledger `self.trades` (initially `[]`). -/
structure StockData where
  symbol : String
  stock_type : StockType
  last_dividend : Option ℚ
  fixed_dividend : Option ℚ
  par_value : ℚ
  trades : List Trade
  deriving DecidableEq, Repr

/-- Embeds `StockData.dividend_yield(self, price)`.

Mirrors the source line by line: `price <= 0` raises; for `COMMON`,
`last_dividend is None or last_dividend < 0` raises, else returns
`last_dividend / price`; for `PREFERRED`, `fixed_dividend is None or
fixed_dividend <= 0` raises, else returns
`(fixed_dividend * par_value) / price`. -/
def dividend_yield (s : StockData) (price : ℚ) : Except String ℚ :=
  if price ≤ 0 then
    Except.error "Price must be positive"
  else
    match s.stock_type with
    | StockType.COMMON =>
        match s.last_dividend with
        | none =>
            Except.error "Last dividend must be provided and be positive for Common stocks"
        | some d =>
            if d < 0 then
              Except.error "Last dividend must be provided and be positive for Common stocks"
            else
              Except.ok (d / price)
    | StockType.PREFERRED =>
        match s.fixed_dividend with
        | none =>
            Except.error "Fixed dividend must be provided and to be positive for Preferred stocks"
        | some f =>
            if f ≤ 0 then
              Except.error "Fixed dividend must be provided and to be positive for Preferred stocks"
            else
              Except.ok (f * s.par_value / price)

/-- Embeds `StockData.pe_ratio(self, price)`: computes `dividend_yield(price)`
(letting its `ValueError` propagate), returns `None` when the yield is zero,
and `price / dividend` otherwise. -/
def pe_ratio_fn (s : StockData) (price : ℚ) : Except String (Option ℚ) :=
  match dividend_yield s price with
  | Except.error e => Except.error e
  | Except.ok dividend =>
      if dividend = 0 then Except.ok none
      else Except.ok (some (price / dividend))

/-- Embeds `StockData.record_trade(self, quantity, price, indicator)`, with
`datetime.now()` passed in as the explicit `timestamp` parameter.

The result pairs the Python control-flow outcome (`ok ()` for a normal
return, `error msg` for a raised `ValueError`) with the state of `self`
after the call: unchanged on every raise, and with the new trade dict
appended on success. -/
def record_trade (s : StockData) (quantity : ℤ) (price : ℚ)
    (indicator : Option TradeType) (timestamp : ℚ) :
    Except String Unit × StockData :=
  if quantity ≤ 0 then
    (Except.error "Quantity must be positive", s)
  else if price ≤ 0 then
    (Except.error "Price must be positive", s)
  else
    match indicator with
    | none => (Except.error "Invalid trade indicator", s)
    | some ind =>
        (Except.ok (),
         { s with trades := s.trades ++
             [{ timestamp := timestamp, quantity := quantity,
                price := price, indicator := ind }] })

/-- The window of `timedelta(minutes=15)`, with time measured in minutes. -/
def window_minutes : ℚ := 15

/-- The filtered view `trades_within_15_minutes` of
`StockData.volume_weighted_stock_price`: the trades whose
`timestamp >= now - 15 minutes`. -/
def recent_trades (s : StockData) (now : ℚ) : List Trade :=
  s.trades.filter (fun trade => now - window_minutes ≤ trade.timestamp)

/-- Embeds `StockData.volume_weighted_stock_price(self)`, with `datetime.now()`
passed in as the explicit `now` parameter: `None` when no trade lies in the
15-minute window, else `Σ(price·quantity) / Σ(quantity)` over the window. -/
def volume_weighted_stock_price (s : StockData) (now : ℚ) : Option ℚ :=
  let trades_within := recent_trades s now
  if trades_within.isEmpty then
    none
  else
    let total_value := (trades_within.map (fun t => t.price * (t.quantity : ℚ))).sum
    let total_quantity := (trades_within.map (fun t => ((t.quantity : ℚ)))).sum
    some (total_value / total_quantity)

/-- Embeds `GBCECalculator.calculate_gbce_all_share_index(stock_data)`:
`None` for an empty input and when every stock's ledger is empty; otherwise
`reduce(mul, prices, 1) ** (1.0 / len(valid_stocks))` where `prices` are the
`stock.trades[-1]['price']` of the stocks with a non-empty ledger.
(`getD 0` is never reached: every `valid_stock` has a non-empty ledger.) -/
noncomputable def calculate_gbce_all_share_index (stock_data : List StockData) : Option ℝ :=
  if stock_data.isEmpty then
    none
  else
    let valid_stocks := stock_data.filter (fun stock => ¬ stock.trades.isEmpty)
    if valid_stocks.isEmpty then
      none
    else
      let prices := valid_stocks.map (fun stock => ((stock.trades.getLast?).map Trade.price).getD 0)
      let product : ℚ := prices.foldl (· * ·) 1
      some ((product : ℝ) ^ ((1 : ℝ) / (valid_stocks.length : ℝ)))

/-- The state of `self` after `dividend_yield` returns or raises: the method
body only reads `self`, so the translated post-state is the input state. -/
def dividend_yield_state (s : StockData) (_price : ℚ) : StockData := s

/-- The state of `self` after `pe_ratio` returns or raises: the method body
only reads `self` (through `dividend_yield`), so the post-state is the input
state. -/
def pe_ratio_state (s : StockData) (_price : ℚ) : StockData := s

/-- The state of `self` after `volume_weighted_stock_price`: the method body
builds the filtered list `trades_within_15_minutes` as a new list and never
writes `self`, so the post-state is the input state. -/
def vwsp_state (s : StockData) (_now : ℚ) : StockData := s

/-- The states of the records after `calculate_gbce_all_share_index`: the
static method only reads `stock.trades`, so every record is unchanged. -/
def gbce_state (stock_data : List StockData) : List StockData := stock_data

/-! Concrete records used to exercise the operations (mirroring the fixtures
of `tests/test_stock_utilities.py`). -/

/-- A Common stock with `last_dividend = 8`, like the `POP` test fixture. -/
def sampleCommon : StockData :=
  { symbol := "POP", stock_type := StockType.COMMON, last_dividend := some 8,
    fixed_dividend := none, par_value := 100, trades := [] }

/-- A Preferred stock whose fixed dividend rate `2` lies outside `(0,1]`. -/
def preferred_rate_two : StockData :=
  { symbol := "PRF", stock_type := StockType.PREFERRED, last_dividend := none,
    fixed_dividend := some 2, par_value := 100, trades := [] }

/-- A Preferred stock with fixed dividend rate `0`. -/
def preferred_rate_zero : StockData :=
  { symbol := "PRZ", stock_type := StockType.PREFERRED, last_dividend := none,
    fixed_dividend := some 0, par_value := 100, trades := [] }

/-- A Preferred stock with rate `1/50 = 0.02` and par value `100`, like the
`GIN` test fixture. -/
def samplePreferred : StockData :=
  { symbol := "GIN", stock_type := StockType.PREFERRED, last_dividend := some 8,
    fixed_dividend := some (1/50), par_value := 100, trades := [] }

/-- A stock whose ledger holds the spec example trades
`(qty=10, price=100)` and `(qty=5, price=110)`, both at time `0`. -/
def vwspSample : StockData :=
  { symbol := "VWS", stock_type := StockType.COMMON, last_dividend := some 0,
    fixed_dividend := none, par_value := 100,
    trades := [ { timestamp := 0, quantity := 10, price := 100, indicator := TradeType.BUY },
                { timestamp := 0, quantity := 5, price := 110, indicator := TradeType.SELL } ] }

/-- A stock whose most recent trade price is `100`. -/
def gbceSample100 : StockData :=
  { symbol := "A", stock_type := StockType.COMMON, last_dividend := some 0,
    fixed_dividend := none, par_value := 100,
    trades := [ { timestamp := 0, quantity := 1, price := 100, indicator := TradeType.BUY } ] }

/-- A stock whose most recent trade price is `120`. -/
def gbceSample120 : StockData :=
  { symbol := "B", stock_type := StockType.COMMON, last_dividend := some 0,
    fixed_dividend := none, par_value := 100,
    trades := [ { timestamp := 0, quantity := 1, price := 120, indicator := TradeType.BUY } ] }

/-- A stock whose most recent trade price is `125`. -/
def gbceSample125 : StockData :=
  { symbol := "C", stock_type := StockType.COMMON, last_dividend := some 0,
    fixed_dividend := none, par_value := 100,
    trades := [ { timestamp := 0, quantity := 1, price := 125, indicator := TradeType.SELL } ] }

/-- A left fold of multiplication over positive rationals, started at a
positive seed, stays positive (the shape of `reduce(mul, prices, 1)`). -/
theorem foldl_mul_pos {l : List ℚ} (h : ∀ x ∈ l, 0 < x) {a : ℚ} (ha : 0 < a) :
    0 < l.foldl (· * ·) a := by
  induction l generalizing a with
  | nil => simpa using ha
  | cons x xs ih =>
      exact ih (fun y hy => h y (List.mem_cons_of_mem _ hy))
        (mul_pos ha (h x (List.mem_cons_self _ _)))

/-- C1: `dividend_yield` raises for `price ≤ 0`; for a Common stock it raises
when `last_dividend` is absent or negative and otherwise returns
`last_dividend / price`; for a Preferred stock it raises when
`fixed_dividend` is absent or `≤ 0` and otherwise returns
`(fixed_dividend * par_value) / price`. -/
theorem C1_dividend_yield_contract (s : StockData) (price : ℚ) :
    (price ≤ 0 → dividend_yield s price = Except.error "Price must be positive") ∧
    (0 < price → s.stock_type = StockType.COMMON →
      ((s.last_dividend = none ∨ ∃ d, s.last_dividend = some d ∧ d < 0) →
        ∃ e, dividend_yield s price = Except.error e) ∧
      (∀ d, s.last_dividend = some d → 0 ≤ d →
        dividend_yield s price = Except.ok (d / price))) ∧
    (0 < price → s.stock_type = StockType.PREFERRED →
      ((s.fixed_dividend = none ∨ ∃ f, s.fixed_dividend = some f ∧ f ≤ 0) →
        ∃ e, dividend_yield s price = Except.error e) ∧
      (∀ f, s.fixed_dividend = some f → 0 < f →
        dividend_yield s price = Except.ok (f * s.par_value / price))) := by
  refine ⟨fun hp => by simp [dividend_yield, hp], ?_, ?_⟩
  · intro hp hk
    have hp' : ¬ price ≤ 0 := not_le.mpr hp
    constructor
    · rintro (hnone | ⟨d, hd, hdneg⟩)
      · exact ⟨"Last dividend must be provided and be positive for Common stocks",
          by simp [dividend_yield, hp', hk, hnone]⟩
      · exact ⟨"Last dividend must be provided and be positive for Common stocks",
          by simp [dividend_yield, hp', hk, hd, hdneg]⟩
    · intro d hd hdnn
      simp [dividend_yield, hp', hk, hd, not_lt.mpr hdnn]
  · intro hp hk
    have hp' : ¬ price ≤ 0 := not_le.mpr hp
    constructor
    · rintro (hnone | ⟨f, hf, hfnp⟩)
      · exact ⟨"Fixed dividend must be provided and to be positive for Preferred stocks",
          by simp [dividend_yield, hp', hk, hnone]⟩
      · exact ⟨"Fixed dividend must be provided and to be positive for Preferred stocks",
          by simp [dividend_yield, hp', hk, hf, hfnp]⟩
    · intro f hf hfpos
      simp [dividend_yield, hp', hk, hf, not_le.mpr hfpos]

/-- C1 witness: the Common stock `POP` (`last_dividend = 8`) at price `100`
yields `8 / 100`. -/
theorem C1_dividend_yield_contract_witness :
    dividend_yield sampleCommon 100 = Except.ok (8 / 100) :=
  ((C1_dividend_yield_contract sampleCommon 100).2.1 (by norm_num) rfl).2
    8 rfl (by norm_num)

/-- C4: `pe_ratio` propagates every error of `dividend_yield`; when the yield
is a value `d` it returns the undefined (`none`) result exactly when `d = 0`,
and `price / d` otherwise. -/
theorem C4_pe_contract (s : StockData) (price : ℚ) :
    (∀ e, dividend_yield s price = Except.error e →
      pe_ratio_fn s price = Except.error e) ∧
    (∀ d, dividend_yield s price = Except.ok d →
      (pe_ratio_fn s price = Except.ok none ↔ d = 0) ∧
      (d ≠ 0 → pe_ratio_fn s price = Except.ok (some (price / d)))) := by
  constructor
  · intro e he
    simp [pe_ratio_fn, he]
  · intro d hd
    constructor
    · constructor
      · intro hnone
        by_contra hdne
        simp [pe_ratio_fn, hd, hdne] at hnone
      · intro hd0
        simp [pe_ratio_fn, hd, hd0]
    · intro hdne
      simp [pe_ratio_fn, hd, hdne]

/-- C4 witness: for `POP` at price `100` the yield is `2/25 ≠ 0`, so the
P/E result is `100 / (2/25) = 1250`. -/
theorem C4_pe_contract_witness :
    pe_ratio_fn sampleCommon 100 = Except.ok (some (100 / (2 / 25))) :=
  ((C4_pe_contract sampleCommon 100).2 (2 / 25)
      (by norm_num [dividend_yield, sampleCommon])).2 (by norm_num)

/-- C2: `volume_weighted_stock_price` returns `none` when no trade has
`timestamp ≥ now - 15` minutes, and otherwise returns
`Σ(price·quantity) / Σ(quantity)` over exactly the trades inside that window;
on the example ledger `{(qty 10, price 100), (qty 5, price 110)}` entirely in
the window it returns `310/3 = 103.333...`. -/
theorem C2_vwsp_contract (s : StockData) (now : ℚ) :
    (s.trades.filter (fun t => now - 15 ≤ t.timestamp) = [] →
      volume_weighted_stock_price s now = none) ∧
    (s.trades.filter (fun t => now - 15 ≤ t.timestamp) ≠ [] →
      volume_weighted_stock_price s now =
        some (((s.trades.filter (fun t => now - 15 ≤ t.timestamp)).map
                  (fun t => t.price * (t.quantity : ℚ))).sum /
              ((s.trades.filter (fun t => now - 15 ≤ t.timestamp)).map
                  (fun t => ((t.quantity : ℚ)))).sum)) ∧
    volume_weighted_stock_price vwspSample 0 = some (310 / 3) := by
  refine ⟨?_, ?_, ?_⟩
  · intro h
    have hr : recent_trades s now = [] := by
      simp only [recent_trades, window_minutes]; exact h
    simp [volume_weighted_stock_price, hr]
  · intro h
    have hr : (recent_trades s now).isEmpty = false := by
      simp only [recent_trades, window_minutes]
      exact List.isEmpty_eq_false.mpr h
    simp only [volume_weighted_stock_price, recent_trades, window_minutes] at hr ⊢
    rw [hr]
    simp only [Bool.false_eq_true, if_false]
  · norm_num [volume_weighted_stock_price, recent_trades, window_minutes,
      vwspSample, List.filter]

/-- C2 witness: a record with an empty ledger has no trade in the window, so
the volume-weighted price is undefined. -/
theorem C2_vwsp_contract_witness :
    volume_weighted_stock_price sampleCommon 0 = none :=
  (C2_vwsp_contract sampleCommon 0).1 (by simp [sampleCommon])

/-- C5: `record_trade` raises when `quantity ≤ 0`, `price ≤ 0` or the
indicator is not a `TradeType` member; a valid call returns normally, appends
exactly one trade carrying the given timestamp, quantity, price and
indicator, grows the ledger by one, and leaves every prior entry unchanged in
its original position. -/
theorem C5_record_trade_contract (s : StockData) (quantity : ℤ) (price : ℚ)
    (indicator : Option TradeType) (timestamp : ℚ) :
    (quantity ≤ 0 ∨ price ≤ 0 ∨ indicator = none →
      ∃ e, (record_trade s quantity price indicator timestamp).1 = Except.error e) ∧
    (∀ ind, indicator = some ind → 0 < quantity → 0 < price →
      (record_trade s quantity price indicator timestamp).1 = Except.ok () ∧
      (record_trade s quantity price indicator timestamp).2.trades =
        s.trades ++ [{ timestamp := timestamp, quantity := quantity,
                       price := price, indicator := ind }] ∧
      (record_trade s quantity price indicator timestamp).2.trades.length =
        s.trades.length + 1 ∧
      (∀ k, k < s.trades.length →
        (record_trade s quantity price indicator timestamp).2.trades[k]? =
          s.trades[k]?)) := by
  constructor
  · rintro (hq | hp | hind)
    · exact ⟨"Quantity must be positive", by simp [record_trade, hq]⟩
    · by_cases hq : quantity ≤ 0
      · exact ⟨"Quantity must be positive", by simp [record_trade, hq]⟩
      · exact ⟨"Price must be positive", by simp [record_trade, hq, hp]⟩
    · by_cases hq : quantity ≤ 0
      · exact ⟨"Quantity must be positive", by simp [record_trade, hq]⟩
      · by_cases hp : price ≤ 0
        · exact ⟨"Price must be positive", by simp [record_trade, hq, hp]⟩
        · exact ⟨"Invalid trade indicator", by simp [record_trade, hq, hp, hind]⟩
  · intro ind hind hq hp
    have hq' : ¬ quantity ≤ 0 := not_le.mpr hq
    have hp' : ¬ price ≤ 0 := not_le.mpr hp
    refine ⟨by simp [record_trade, hq', hp', hind], ?_, ?_, ?_⟩
    · simp [record_trade, hq', hp', hind]
    · simp [record_trade, hq', hp', hind]
    · intro k hk
      have ht : (record_trade s quantity price indicator timestamp).2.trades =
          s.trades ++ [{ timestamp := timestamp, quantity := quantity,
                         price := price, indicator := ind }] := by
        simp [record_trade, hq', hp', hind]
      rw [ht, List.getElem?_append_left hk]

/-- C5 witness: recording `(quantity 3, price 10, BUY)` at time `7` on the
trade-free `POP` record appends exactly that trade. -/
theorem C5_record_trade_contract_witness :
    (record_trade sampleCommon 3 10 (some TradeType.BUY) 7).2.trades =
      sampleCommon.trades ++
        [{ timestamp := 7, quantity := 3, price := 10,
           indicator := TradeType.BUY }] :=
  ((C5_record_trade_contract sampleCommon 3 10 (some TradeType.BUY) 7).2
    TradeType.BUY rfl (by norm_num) (by norm_num)).2.1

/-- C3: the all-share index restricts to the records with a non-empty trade
ledger; when that restriction is empty (in particular for an empty input) it
returns `none`; otherwise it returns the n-th root of the product of each
qualifying record's most recent trade price (the code's
`product ^ (1 / n)`, which for positive prices is the positive real whose
n-th power is the product). On one record with last price `100` it returns
`100`, and on last prices `{120, 125}` it returns `√(120·125)`. -/
theorem C3_gbce_contract (l : List StockData) :
    (l.filter (fun stock => ¬ stock.trades.isEmpty) = [] →
      calculate_gbce_all_share_index l = none) ∧
    (∀ v, l.filter (fun stock => ¬ stock.trades.isEmpty) = v → v ≠ [] →
      calculate_gbce_all_share_index l =
        some ((((v.map (fun stock => ((stock.trades.getLast?).map Trade.price).getD 0)).foldl
                  (· * ·) 1 : ℚ) : ℝ) ^ ((1 : ℝ) / (v.length : ℝ))) ∧
      ((∀ p ∈ v.map (fun stock => ((stock.trades.getLast?).map Trade.price).getD 0), 0 < p) →
        ∃ r : ℝ, calculate_gbce_all_share_index l = some r ∧ 0 < r ∧
          r ^ v.length =
            (((v.map (fun stock => ((stock.trades.getLast?).map Trade.price).getD 0)).foldl
                (· * ·) 1 : ℚ) : ℝ))) ∧
    calculate_gbce_all_share_index [gbceSample100] = some 100 ∧
    calculate_gbce_all_share_index [gbceSample120, gbceSample125] =
      some (Real.sqrt (120 * 125)) := by
  have hformula : ∀ v, l.filter (fun stock => ¬ stock.trades.isEmpty) = v → v ≠ [] →
      calculate_gbce_all_share_index l =
        some ((((v.map (fun stock => ((stock.trades.getLast?).map Trade.price).getD 0)).foldl
                  (· * ·) 1 : ℚ) : ℝ) ^ ((1 : ℝ) / (v.length : ℝ))) := by
    intro v hv hne
    have hl : l.isEmpty = false := by
      cases l with
      | nil => exact absurd (by simpa using hv.symm) hne
      | cons x xs => rfl
    have hv' : v.isEmpty = false := List.isEmpty_eq_false.mpr hne
    simp only [calculate_gbce_all_share_index, hl, Bool.false_eq_true, if_false, hv]
    rw [hv']
    simp only [Bool.false_eq_true, if_false]
  refine ⟨?_, ?_, ?_, ?_⟩
  · intro h
    by_cases hl : l.isEmpty = true
    · simp [calculate_gbce_all_share_index, hl]
    · simp only [calculate_gbce_all_share_index]
      rw [if_neg hl, h]
      rfl
  · intro v hv hne
    refine ⟨hformula v hv hne, ?_⟩
    intro hpos
    have hprod : 0 < (v.map (fun stock =>
        ((stock.trades.getLast?).map Trade.price).getD 0)).foldl (· * ·) 1 :=
      foldl_mul_pos hpos one_pos
    have hprodR : (0 : ℝ) <
        (((v.map (fun stock => ((stock.trades.getLast?).map Trade.price).getD 0)).foldl
            (· * ·) 1 : ℚ) : ℝ) := by exact_mod_cast hprod
    refine ⟨_, hformula v hv hne, Real.rpow_pos_of_pos hprodR _, ?_⟩
    rw [one_div, Real.rpow_inv_natCast_pow hprodR.le
      (fun h0 => hne (List.length_eq_zero.mp h0))]
  · norm_num [calculate_gbce_all_share_index, gbceSample100, List.filter]
  · norm_num [calculate_gbce_all_share_index, gbceSample120, gbceSample125,
      List.filter, Real.sqrt_eq_rpow]

/-- C3 witness: over the empty collection (no qualifying record) the index
is undefined. -/
theorem C3_gbce_contract_witness :
    calculate_gbce_all_share_index [] = none :=
  (C3_gbce_contract []).1 rfl

/-- C6 counterexample: a Preferred record whose `fixed_dividend` is `2` —
outside `(0,1]` since `¬ 2 ≤ 1` — is not rejected at use-time: at the
positive price `1`, `dividend_yield` returns `ok (2 * 100 / 1) = ok 200`
instead of raising. -/
theorem C6_rate_above_one_accepted :
    preferred_rate_two.stock_type = StockType.PREFERRED ∧
    preferred_rate_two.fixed_dividend = some 2 ∧
    ¬ ((2 : ℚ) ≤ 1) ∧
    (0 : ℚ) < 1 ∧
    dividend_yield preferred_rate_two 1 = Except.ok 200 :=
  ⟨rfl, rfl, by norm_num, by norm_num,
    by norm_num [dividend_yield, preferred_rate_two]⟩

/-- C6 amended: for a Preferred record at a positive price, `dividend_yield`
raises exactly when `fixed_dividend` is absent or `≤ 0`; any rate above `1`
is accepted, so only the lower end of the spec's `(0,1]` range is enforced,
and only at use-time. -/
theorem C6_preferred_use_time_amended (s : StockData) (price : ℚ)
    (hp : 0 < price) (hk : s.stock_type = StockType.PREFERRED) :
    (∃ e, dividend_yield s price = Except.error e) ↔
      s.fixed_dividend = none ∨ ∃ f, s.fixed_dividend = some f ∧ f ≤ 0 := by
  have hp' : ¬ price ≤ 0 := not_le.mpr hp
  constructor
  · rintro ⟨e, he⟩
    rcases hf : s.fixed_dividend with _ | f
    · exact Or.inl rfl
    · by_cases hf0 : f ≤ 0
      · exact Or.inr ⟨f, rfl, hf0⟩
      · simp [dividend_yield, hp', hk, hf, hf0] at he
  · rintro (hnone | ⟨f, hf, hf0⟩)
    · exact ⟨"Fixed dividend must be provided and to be positive for Preferred stocks",
        by simp [dividend_yield, hp', hk, hnone]⟩
    · exact ⟨"Fixed dividend must be provided and to be positive for Preferred stocks",
        by simp [dividend_yield, hp', hk, hf, hf0]⟩

/-- C6 witness: the Preferred record with rate `0` does raise at price `1`. -/
theorem C6_preferred_use_time_amended_witness :
    ∃ e, dividend_yield preferred_rate_zero 1 = Except.error e :=
  (C6_preferred_use_time_amended preferred_rate_zero 1 (by norm_num) rfl).mpr
    (Or.inr ⟨0, rfl, le_refl 0⟩)

/-- C7: the four read operations leave the record (ledger included) exactly
as it was — their translated post-states are the input states — and
`record_trade`, the only mutating operation, only ever appends to the
ledger, so no entry is ever removed or modified. -/
theorem C7_ledger_never_shrinks (s : StockData) (price now : ℚ)
    (l : List StockData) (quantity : ℤ) (p : ℚ) (indicator : Option TradeType)
    (ts : ℚ) :
    dividend_yield_state s price = s ∧
    pe_ratio_state s price = s ∧
    vwsp_state s now = s ∧
    gbce_state l = l ∧
    ∃ appended, (record_trade s quantity p indicator ts).2.trades =
      s.trades ++ appended := by
  refine ⟨rfl, rfl, rfl, rfl, ?_⟩
  by_cases hq : quantity ≤ 0
  · exact ⟨[], by simp [record_trade, hq]⟩
  · by_cases hp : p ≤ 0
    · exact ⟨[], by simp [record_trade, hq, hp]⟩
    · rcases indicator with _ | ind
      · exact ⟨[], by simp [record_trade, hq, hp]⟩
      · exact ⟨[{ timestamp := ts, quantity := quantity, price := p,
                  indicator := ind }], by simp [record_trade, hq, hp]⟩

/-- C8: with the record state unchanged (which is what the read operations
leave behind) and the same arguments, a second call of `dividend_yield`,
`pe_ratio`, `volume_weighted_stock_price` or the all-share index returns
exactly what the first call returned. -/
theorem C8_read_only_repeatable (s : StockData) (price now : ℚ)
    (l : List StockData) :
    dividend_yield (dividend_yield_state s price) price = dividend_yield s price ∧
    pe_ratio_fn (pe_ratio_state s price) price = pe_ratio_fn s price ∧
    volume_weighted_stock_price (vwsp_state s now) now =
      volume_weighted_stock_price s now ∧
    calculate_gbce_all_share_index (gbce_state l) =
      calculate_gbce_all_share_index l :=
  ⟨rfl, rfl, rfl, rfl⟩

/-- C9: `record_trade` is atomic on failure: whenever it raises (quantity
`≤ 0`, price `≤ 0`, or an invalid indicator), the record — ledger and every
other field — is exactly as it was before the call. -/
theorem C9_record_trade_atomic_on_failure (s : StockData) (quantity : ℤ)
    (price : ℚ) (indicator : Option TradeType) (timestamp : ℚ) (e : String)
    (h : (record_trade s quantity price indicator timestamp).1 = Except.error e) :
    (record_trade s quantity price indicator timestamp).2 = s := by
  by_cases hq : quantity ≤ 0
  · simp [record_trade, hq]
  · by_cases hp : price ≤ 0
    · simp [record_trade, hq, hp]
    · rcases indicator with _ | ind
      · simp [record_trade, hq, hp]
      · simp [record_trade, hq, hp] at h

/-- C9 witness: the rejected call with quantity `0` leaves the `POP` record
unchanged. -/
theorem C9_record_trade_atomic_on_failure_witness :
    (record_trade sampleCommon 0 1 (some TradeType.BUY) 0).2 = sampleCommon :=
  C9_record_trade_atomic_on_failure sampleCommon 0 1 (some TradeType.BUY) 0
    "Quantity must be positive" (by simp [record_trade])

/-- C10: for a Preferred record with positive par value and a positive price,
`pe_ratio` never returns the undefined (`ok none`) result: it either raises
(absent or non-positive `fixed_dividend`) or returns a numeric value, because
the yield `fixed_dividend * par_value / price` is strictly positive. -/
theorem C10_preferred_pe_never_undefined (s : StockData) (price : ℚ)
    (hk : s.stock_type = StockType.PREFERRED) (hpar : 0 < s.par_value)
    (hp : 0 < price) :
    pe_ratio_fn s price ≠ Except.ok none ∧
    ((∃ e, pe_ratio_fn s price = Except.error e) ∨
      ∃ r, pe_ratio_fn s price = Except.ok (some r)) := by
  have hp' : ¬ price ≤ 0 := not_le.mpr hp
  rcases hf : s.fixed_dividend with _ | f
  · have he : dividend_yield s price =
        Except.error "Fixed dividend must be provided and to be positive for Preferred stocks" := by
      simp [dividend_yield, hp', hk, hf]
    exact ⟨by simp [pe_ratio_fn, he],
      Or.inl ⟨"Fixed dividend must be provided and to be positive for Preferred stocks",
        by simp [pe_ratio_fn, he]⟩⟩
  · by_cases hf0 : f ≤ 0
    · have he : dividend_yield s price =
          Except.error "Fixed dividend must be provided and to be positive for Preferred stocks" := by
        simp [dividend_yield, hp', hk, hf, hf0]
      exact ⟨by simp [pe_ratio_fn, he],
        Or.inl ⟨"Fixed dividend must be provided and to be positive for Preferred stocks",
          by simp [pe_ratio_fn, he]⟩⟩
    · have hyield : dividend_yield s price = Except.ok (f * s.par_value / price) := by
        simp [dividend_yield, hp', hk, hf, hf0]
      have hpos : 0 < f * s.par_value / price :=
        div_pos (mul_pos (not_le.mp hf0) hpar) hp
      exact ⟨by simp [pe_ratio_fn, hyield, ne_of_gt hpos],
        Or.inr ⟨price / (f * s.par_value / price),
          by simp [pe_ratio_fn, hyield, ne_of_gt hpos]⟩⟩

/-- C10 witness: the `GIN`-like Preferred record (rate `1/50`, par `100`) at
price `100` has a defined P/E outcome. -/
theorem C10_preferred_pe_never_undefined_witness :
    pe_ratio_fn samplePreferred 100 ≠ Except.ok none :=
  (C10_preferred_pe_never_undefined samplePreferred 100 rfl
    (by norm_num [samplePreferred]) (by norm_num)).1
